import Mathlib

/-!
Verification of the NeoSearch bookmark service (apolzek/neosearch).

The development shallowly embeds the two deployment variants of the service:

* the database-backed variant (`src/backend`): `database.py`'s SQLite-backed
  store modelled as lists of records with auto-increment id counters, and the
  FastAPI handlers of `src/backend/neosearch.py` as state-passing functions;
* the config-file variant (`src/server/neosearch.py`): repositories given by a
  configured list of locations, feeds modelled through a deterministic
  environment mapping each location to its fetch outcome.

Modelling conventions, stated once here:

* SQLite `TIMESTAMP` values are modelled as `Nat` instants passed in
  explicitly (`now`); `AUTOINCREMENT` ids are monotone counters that are never
  reused after deletion, matching the `AUTOINCREMENT` keyword in the schema.
* Python string truthiness (`if s:`) is the non-emptiness test; `None` and the
  empty string are both falsy, which is why optional request parameters are
  `Option String` tested with `optTruthy`.
* SQLite `LIKE` is case-insensitive on ASCII; it is modelled in full by
  `likeMatchChars` over case-folded characters: `%` matches any (possibly
  empty) sequence, `_` exactly one character, and no ESCAPE clause appears in
  the queries. Case folding is ASCII `Char.toLower`, as in SQLite.
* `bookmarks.tags` is stored as the `json.dumps` text of a list of strings and
  every reader immediately `json.loads` it back, so tags are carried
  structurally as `List String`; the serialized text matters only to the SQL
  `LIKE` match, where `json_dumps_strings` reproduces `json.dumps` for lists
  of strings made of printable characters (the escapes for `"` and `\` are
  included; control-character and non-ASCII escapes are outside every claim).
* `users.id` is a PRIMARY KEY, so the SQL join `users u ON b.user_id = u.id`
  is modelled by `List.find?` over the user list.
-/

/-! ### Character-level string operations -/

def startsWithChars : List Char → List Char → Bool
  | [], _ => true
  | _ :: _, [] => false
  | a :: as, b :: bs => a == b && startsWithChars as bs

def containsChars (pat : List Char) : List Char → Bool
  | [] => startsWithChars pat []
  | c :: rest => startsWithChars pat (c :: rest) || containsChars pat rest

def lowerChars (l : List Char) : List Char := l.map Char.toLower

/-- `url.startswith(p)` on Python strings. -/
def startsWithStr (s p : String) : Bool := startsWithChars p.data s.data

/-- Case-insensitive substring test, `needle.lower() in hay.lower()`, as the
config-file variant's Python code performs it (ASCII fold; the claims stay
within ASCII). -/
def containsCI (hay needle : String) : Bool :=
  containsChars (lowerChars needle.data) (lowerChars hay.data)

/-- The suffixes of a character list, longest first (including itself and the
empty suffix). -/
def suffixesOf : List Char → List (List Char)
  | [] => [[]]
  | c :: s => (c :: s) :: suffixesOf s

/-- SQLite `LIKE` pattern matching over case-folded characters: `%` matches
any (possibly empty) sequence — realized by trying every suffix — `_` matches
exactly one character, and any other pattern character matches itself. The
backend's queries use no ESCAPE clause. -/
def likeMatchChars : List Char → List Char → Bool
  | [], s => s.isEmpty
  | '%' :: ps, s => (suffixesOf s).any (fun s2 => likeMatchChars ps s2)
  | '_' :: ps, s =>
      match s with
      | [] => false
      | _ :: s2 => likeMatchChars ps s2
  | p :: ps, s =>
      match s with
      | [] => false
      | c :: s2 => p == c && likeMatchChars ps s2

/-- `column LIKE '%' || keyword || '%'` in SQLite: case-insensitive on ASCII,
with `%` and `_` occurring in the keyword acting as wildcards. -/
def likeContainsKeyword (column keyword : String) : Bool :=
  likeMatchChars ('%' :: lowerChars keyword.data ++ ['%'])
    (lowerChars column.data)

/-- Python truthiness of a string: non-empty. -/
def strTruthy (s : String) : Bool := !s.data.isEmpty

/-- Python truthiness of an optional string parameter (`None` and `""` falsy). -/
def optTruthy : Option String → Bool
  | none => false
  | some s => strTruthy s

/-- `json.dumps` escape for the characters `"` (34) and `\` (92). -/
def jsonEscapeChar (c : Char) : List Char :=
  if c = Char.ofNat 34 then [Char.ofNat 92, Char.ofNat 34]
  else if c = Char.ofNat 92 then [Char.ofNat 92, Char.ofNat 92]
  else [c]

def jsonQuote (s : String) : List Char :=
  Char.ofNat 34 :: (s.data.flatMap jsonEscapeChar) ++ [Char.ofNat 34]

def joinWithComma : List (List Char) → List Char
  | [] => []
  | [s] => s
  | s :: rest => s ++ ',' :: ' ' :: joinWithComma rest

/-- `json.dumps` of a list of strings, as stored in the `bookmarks.tags`
column; for example `json.dumps(["a","b"])` is the text `["a", "b"]`. -/
def json_dumps_strings (tags : List String) : String :=
  ⟨'[' :: joinWithComma (tags.map jsonQuote) ++ [']']⟩

/-! ### Stable descending sort, for `ORDER BY created_at DESC` -/

def insertDesc {α : Type} (key : α → Nat) (b : α) : List α → List α
  | [] => [b]
  | c :: cs => if key c < key b then b :: c :: cs else c :: insertDesc key b cs

def sortDesc {α : Type} (key : α → Nat) (l : List α) : List α :=
  l.foldl (fun acc b => insertDesc key b acc) []

theorem mem_insertDesc {α : Type} (key : α → Nat) (b a : α) (l : List α) :
    a ∈ insertDesc key b l ↔ a = b ∨ a ∈ l := by
  induction l with
  | nil => simp [insertDesc]
  | cons c cs ih =>
    simp only [insertDesc]
    split
    · simp
    · simp only [List.mem_cons, ih]
      tauto

theorem mem_sortDesc_foldl {α : Type} (key : α → Nat) (a : α) (l acc : List α) :
    a ∈ l.foldl (fun acc b => insertDesc key b acc) acc ↔ a ∈ acc ∨ a ∈ l := by
  induction l generalizing acc with
  | nil => simp
  | cons c cs ih =>
    simp only [List.foldl_cons, ih, mem_insertDesc, List.mem_cons]
    tauto

theorem mem_sortDesc {α : Type} (key : α → Nat) (a : α) (l : List α) :
    a ∈ sortDesc key l ↔ a ∈ l := by
  simp [sortDesc, mem_sortDesc_foldl]

/-! ### Data model (`src/backend/database.py`, schema in `init_database`) -/

structure User where
  id : Nat
  username : String
deriving DecidableEq, Repr

structure Bookmark where
  id : Nat
  user_id : Nat
  url : String
  description : String
  tags : List String
  category : String
  source : Option String
  is_public : Bool
  created_at : Nat
deriving DecidableEq, Repr

structure Repository where
  id : Nat
  user_id : Nat
  name : String
  url : String
  is_public : Bool
  last_synced : Option Nat
  created_at : Nat
deriving DecidableEq, Repr

/-- The SQLite database state: the three tables plus their `AUTOINCREMENT`
counters (never reused after a delete). -/
structure DB where
  users : List User
  bookmarks : List Bookmark
  repositories : List Repository
  next_user_id : Nat
  next_bookmark_id : Nat
  next_repository_id : Nat
deriving DecidableEq, Repr

def DB.empty : DB := ⟨[], [], [], 1, 1, 1⟩

/-! ### `database.py` operations -/

def get_user_by_id (db : DB) (user_id : Nat) : Option User :=
  db.users.find? (fun u => u.id == user_id)

def get_user_by_username (db : DB) (username : String) : Option User :=
  db.users.find? (fun u => u.username == username)

/-- `create_user` (the password hash is outside the modelled core). -/
def create_user (db : DB) (username : String) : DB × Nat :=
  ({ db with users := db.users ++ [⟨db.next_user_id, username⟩],
             next_user_id := db.next_user_id + 1 }, db.next_user_id)

/-- `create_bookmark`: INSERT with `is_public` stored as 1/0; `tags` stored as
`json.dumps(tags)` (carried structurally, see the header). Returns
`cursor.lastrowid`. -/
def create_bookmark (db : DB) (user_id : Nat) (url description : String)
    (tags : List String) (category : String) (source : Option String)
    (is_public : Bool) (now : Nat) : DB × Nat :=
  let b : Bookmark :=
    ⟨db.next_bookmark_id, user_id, url, description, tags, category, source,
      is_public, now⟩
  ({ db with bookmarks := db.bookmarks ++ [b],
             next_bookmark_id := db.next_bookmark_id + 1 }, db.next_bookmark_id)

/-- `delete_bookmark`: DELETE WHERE id AND user_id; returns `rowcount > 0`. -/
def delete_bookmark (db : DB) (bookmark_id user_id : Nat) : DB × Bool :=
  ({ db with bookmarks :=
      db.bookmarks.filter (fun b => !(b.id == bookmark_id && b.user_id == user_id)) },
   db.bookmarks.any (fun b => b.id == bookmark_id && b.user_id == user_id))

/-- `delete_bookmarks_by_source`: DELETE WHERE user_id = ? AND source = ?.
A SQL NULL `source` never compares equal, which `Option.some`-equality models. -/
def delete_bookmarks_by_source (db : DB) (user_id : Nat) (source : String) : DB :=
  { db with bookmarks :=
      db.bookmarks.filter (fun b => !(b.user_id == user_id && b.source == some source)) }

/-- The keyword disjunction of `search_user_bookmarks` and
`search_public_bookmarks`: `url LIKE ? OR description LIKE ? OR tags LIKE ?
OR category LIKE ?` with pattern `'%' || keyword || '%'`. The `tags` column
holds the `json.dumps` text, so the LIKE runs over the serialized list. -/
def keyword_row_match (keyword : String) (b : Bookmark) : Bool :=
  likeContainsKeyword b.url keyword ||
  likeContainsKeyword b.description keyword ||
  likeContainsKeyword (json_dumps_strings b.tags) keyword ||
  likeContainsKeyword b.category keyword

/-- `search_user_bookmarks`: rows of the owner, keyword-filtered when the
keyword is truthy, ORDER BY created_at DESC. -/
def search_user_bookmarks (db : DB) (user_id : Nat) (keyword : Option String) :
    List Bookmark :=
  if optTruthy keyword then
    sortDesc (fun b => b.created_at)
      (db.bookmarks.filter (fun b =>
        b.user_id == user_id && keyword_row_match (keyword.getD "") b))
  else
    sortDesc (fun b => b.created_at)
      (db.bookmarks.filter (fun b => b.user_id == user_id))

/-- `search_public_bookmarks`: JOIN with `users` (ids unique, hence `find?`),
`WHERE b.is_public = 1` plus the keyword disjunction, each row extended with
the owning username, ORDER BY created_at DESC. -/
def search_public_bookmarks (db : DB) (keyword : Option String) :
    List (Bookmark × String) :=
  sortDesc (fun r => r.1.created_at)
    (db.bookmarks.filterMap (fun b =>
      match db.users.find? (fun u => u.id == b.user_id) with
      | some u =>
          if b.is_public &&
              (if optTruthy keyword then keyword_row_match (keyword.getD "") b else true)
          then some (b, u.username) else none
      | none => none))

def create_repository (db : DB) (user_id : Nat) (name url : String)
    (is_public : Bool) (now : Nat) : DB × Nat :=
  let r : Repository :=
    ⟨db.next_repository_id, user_id, name, url, is_public, none, now⟩
  ({ db with repositories := db.repositories ++ [r],
             next_repository_id := db.next_repository_id + 1 }, db.next_repository_id)

def get_repository_by_id (db : DB) (repository_id user_id : Nat) : Option Repository :=
  db.repositories.find? (fun r => r.id == repository_id && r.user_id == user_id)

def update_repository_sync_time (db : DB) (repository_id : Nat) (now : Nat) : DB :=
  { db with repositories := db.repositories.map (fun r =>
      if r.id == repository_id then { r with last_synced := some now } else r) }

/-- `delete_repository`: look up the repository name scoped to the owner,
cascade-delete its bookmarks by source, then delete the repository row;
returns `rowcount > 0` (true exactly when the lookup succeeded). -/
def delete_repository (db : DB) (repository_id user_id : Nat) : DB × Bool :=
  match get_repository_by_id db repository_id user_id with
  | some repo =>
      let db1 := delete_bookmarks_by_source db user_id repo.name
      ({ db1 with repositories := db1.repositories.filter (fun r =>
            !(r.id == repository_id && r.user_id == user_id)) }, true)
  | none => (db, false)

/-! ### Remote feeds and fetch outcomes

`requests.get(url, timeout=10)` + `raise_for_status()` + `.json()` either
raises `requests.RequestException` (unreachable host, timeout, non-2xx),
raises `ValueError` (body is not JSON), or yields the parsed document. The
claims under verification only involve failing fetches and well-formed array
feeds, so the parsed document is carried directly as a list of feed objects;
a JSON body that parses to a non-array is outside the modelled outcomes
(`add_repository` rejects it with HTTP 400 before any side effect, and no
claim mentions it). A feed object's relevant keys are `url`, `description`,
`tags` and `category`; `item.get(k, default)` is `Option.getD`. Field values
are string-valued where the code treats them as strings, per the DB schema;
`tags` keeps the `isinstance(tags, list)` distinction. -/

inductive JTags where
  | list : List String → JTags
  | notList : JTags
deriving DecidableEq, Repr

structure FeedItem where
  url : Option String
  description : Option String
  tags : Option JTags
  category : Option String
deriving DecidableEq, Repr

/-- `tags = item.get("tags", []); tags if isinstance(tags, list) else []`. -/
def FeedItem.itemTags (item : FeedItem) : List String :=
  match item.tags with
  | some (.list ts) => ts
  | some .notList => []
  | none => []

inductive FetchResult where
  | reqError : FetchResult
  | jsonError : FetchResult
  | ok : List FeedItem → FetchResult
deriving DecidableEq, Repr

/-- The per-item guard of the import loops: `if url and description:` after
`url = item.get("url", "")` and `description = item.get("description", "")`. -/
def validItem (item : FeedItem) : Bool :=
  strTruthy (item.url.getD "") && strTruthy (item.description.getD "")

def countValid (feed : List FeedItem) : Nat := (feed.filter validItem).length

/-- The shared import loop of `add_repository` and `sync_repository`
(`src/backend/neosearch.py`): each qualifying item becomes a bookmark tagged
`source = repo_name`; non-qualifying items are skipped and `imported_count`
is only bumped on success. -/
def import_bookmarks (user_id : Nat) (repo_name : String) (now : Nat) :
    List FeedItem → DB → Nat → DB × Nat
  | [], db, count => (db, count)
  | item :: rest, db, count =>
      if validItem item then
        import_bookmarks user_id repo_name now rest
          (create_bookmark db user_id (item.url.getD "") (item.description.getD "")
            item.itemTags (item.category.getD "IMPORTED") (some repo_name) true now).1
          (count + 1)
      else
        import_bookmarks user_id repo_name now rest db count

/-! ### Backend endpoints (`src/backend/neosearch.py`) -/

inductive ImportOutcome where
  | invalidUrl : ImportOutcome
  | fetchFailed : ImportOutcome
  | notFound : ImportOutcome
  | success : Nat → Nat → ImportOutcome
deriving DecidableEq, Repr

inductive AddBookmarkOutcome where
  | invalidUrl : AddBookmarkOutcome
  | success : Nat → AddBookmarkOutcome
deriving DecidableEq, Repr

/-- `POST /bookmarks/add`: scheme check, then `create_bookmark` with
`source=None` and the default visibility. -/
def add_bookmark (db : DB) (user_id : Nat) (url description : String)
    (tags : List String) (category : String) (now : Nat) :
    DB × AddBookmarkOutcome :=
  if !(startsWithStr url "http://" || startsWithStr url "https://") then
    (db, .invalidUrl)
  else
    let res := create_bookmark db user_id url description tags category none true now
    (res.1, .success res.2)

/-- `POST /repositories/add`: scheme check, fetch, array check (subsumed by
`FetchResult.ok` carrying an array), create the repository row, run the import
loop, set the sync time. `fetch` stands for one `requests.get` round trip. -/
def add_repository (db : DB) (user_id : Nat) (name url : String)
    (fetch : String → FetchResult) (now : Nat) : DB × ImportOutcome :=
  if !(startsWithStr url "http://" || startsWithStr url "https://") then
    (db, .invalidUrl)
  else
    match fetch url with
    | .reqError => (db, .fetchFailed)
    | .jsonError => (db, .fetchFailed)
    | .ok feed =>
        let created := create_repository db user_id name url true now
        let imported := import_bookmarks user_id name now feed created.1 0
        (update_repository_sync_time imported.1 created.2 now,
         .success created.2 imported.2)

/-- `POST /repositories/(id)/sync`: owner-scoped lookup, then — in this
order — delete the previously imported bookmarks by source, fetch the feed
(raising HTTP 400 on failure, after the delete has already been committed by
its own connection), re-import, update the sync time. -/
def sync_repository (db : DB) (user_id repository_id : Nat)
    (fetch : String → FetchResult) (now : Nat) : DB × ImportOutcome :=
  match get_repository_by_id db repository_id user_id with
  | none => (db, .notFound)
  | some repo =>
      let db1 := delete_bookmarks_by_source db user_id repo.name
      match fetch repo.url with
      | .reqError => (db1, .fetchFailed)
      | .jsonError => (db1, .fetchFailed)
      | .ok feed =>
          let imported := import_bookmarks user_id repo.name now feed db1 0
          (update_repository_sync_time imported.1 repository_id now,
           .success repository_id imported.2)

/-! ### JSON values, for the config-file variant and for response shaping

General JSON values as `json.loads` produces them (object-valued entry fields
are not needed by any claim and are omitted). `pyStr`/`pyRepr` transcribe
Python's `str()`/`repr()` on such values — `str` of a string is itself, of a
parsed list it is the bracketed, comma-separated `repr` of the elements with
strings in single quotes (modelled for strings without embedded quotes or
backslashes, which every claim stays within). -/

inductive JVal where
  | s : String → JVal
  | n : Int → JVal
  | b : Bool → JVal
  | nul : JVal
  | arr : List JVal → JVal
deriving Repr

mutual
def JVal.beq (a b : JVal) : Bool :=
  match a, b with
  | .s x, .s y => x == y
  | .n x, .n y => x == y
  | .b x, .b y => x == y
  | .nul, .nul => true
  | .arr xs, .arr ys => JVal.beqList xs ys
  | _, _ => false
def JVal.beqList (xs ys : List JVal) : Bool :=
  match xs, ys with
  | [], [] => true
  | x :: xs2, y :: ys2 => JVal.beq x y && JVal.beqList xs2 ys2
  | _, _ => false
end

instance : BEq JVal := ⟨JVal.beq⟩

mutual
def pyRepr : JVal → List Char
  | .s str => Char.ofNat 39 :: str.data ++ [Char.ofNat 39]
  | .n i => i.repr.data
  | .b true => "True".data
  | .b false => "False".data
  | .nul => "None".data
  | .arr vs => '[' :: joinWithComma (pyReprList vs) ++ [']']
def pyReprList : List JVal → List (List Char)
  | [] => []
  | v :: vs => pyRepr v :: pyReprList vs
end

def pyStr : JVal → String
  | .s str => str
  | v => ⟨pyRepr v⟩

/-- A parsed JSON object / Python dict, as an association list of its keys in
document order. -/
abbrev Entry : Type := List (String × JVal)

/-- `d[k]` / `d.get(k)`: first binding of the key, if any. -/
def dictFind (e : Entry) (k : String) : Option JVal :=
  (e.find? (fun kv => kv.1 == k)).map (fun kv => kv.2)

/-! ### Backend `/search` response shaping (`src/backend/neosearch.py`)

The SQL rows are dicts; `SELECT *` yields every column, the public-search
JOIN adds `username`. The handler rebuilds each result dict with exactly the
six listed keys, reading absent keys through `.get` (which yields `None`,
serialized as JSON `null`). -/

def Bookmark.toRow (b : Bookmark) : Entry :=
  [("id", .n b.id), ("user_id", .n b.user_id), ("url", .s b.url),
   ("description", .s b.description), ("tags", .arr (b.tags.map JVal.s)),
   ("category", .s b.category),
   ("source", (b.source.map JVal.s).getD .nul),
   ("is_public", .n (if b.is_public then 1 else 0)),
   ("created_at", .n b.created_at)]

/-- The result-dict literal of the `/search` handler (lines 206-213):
`b["url"]` etc. are total on rows produced by the queries, so they are read
with a `null` fallback like the `.get` calls for `source` and `username`. -/
def format_result (row : Entry) : Entry :=
  [("url", (dictFind row "url").getD .nul),
   ("description", (dictFind row "description").getD .nul),
   ("tags", (dictFind row "tags").getD .nul),
   ("category", (dictFind row "category").getD .nul),
   ("source", (dictFind row "source").getD .nul),
   ("username", (dictFind row "username").getD .nul)]

/-- `GET /search` (backend): owner scope when authenticated, public scope
otherwise, then the result-shaping projection. -/
def search_endpoint (db : DB) (current_user : Option Nat)
    (keyword : Option String) : List Entry :=
  match current_user with
  | some uid =>
      (search_user_bookmarks db uid keyword).map (fun b => format_result b.toRow)
  | none =>
      (search_public_bookmarks db keyword).map (fun r =>
        format_result (r.1.toRow ++ [("username", .s r.2)]))

/-! ### Config-file variant (`src/server/neosearch.py`)

A configured repository location maps, deterministically for the request, to
one of four outcomes: the HTTP fetch raises (unreachable / non-2xx / timeout),
the local file is absent, the body fails JSON parsing, or a parsed array of
entry objects comes back. `validate_repository` fetches and parses, returning
False on any exception; the search then re-reads the same location, which the
deterministic environment collapses into one lookup. A JSON body parsing to a
non-array is outside the modelled outcomes (no claim concerns it). -/

inductive FetchOutcome where
  | unreachable : FetchOutcome
  | missingFile : FetchOutcome
  | invalidJson : FetchOutcome
  | okEntries : List Entry → FetchOutcome

def validate_repository (env : String → FetchOutcome) (repo : String) : Bool :=
  match env repo with
  | .okEntries _ => true
  | _ => false

/-- Python iteration of a parsed JSON value, as `for tag in entry[field]`
performs it: an array yields its elements, a string yields its characters as
one-character strings; a number, boolean or null is not iterable and raises
`TypeError` (`none`). -/
def pyIterate : JVal → Option (List JVal)
  | .arr vs => some vs
  | .s str => some (str.data.map (fun c => JVal.s (String.singleton c)))
  | _ => none

/-- Left-to-right, short-circuiting evaluation of
`any(keyword.lower() in tag.lower() for tag in items)`: `some r` when the
generator runs to a verdict `r`, `none` when a non-string `tag` is reached
before a match and `tag.lower()` raises `AttributeError`. -/
def anyTagEval (keyword : String) : List JVal → Option Bool
  | [] => some false
  | .s t :: rest =>
      if containsCI t keyword then some true else anyTagEval keyword rest
  | _ :: _ => none

/-- The `field == "tags"` comprehension guard applied to the field's value:
iterate it, then run the short-circuit `any`. `none` models an exception
escaping the handler (HTTP 500 for the whole request). -/
def tagsGuardEval (keyword : String) (v : JVal) : Option Bool :=
  (pyIterate v).bind (anyTagEval keyword)

/-- Totalization of the guard used inside the filter: exact wherever the
guard evaluates without raising; the raising case (`none`, an HTTP 500 that
aborts the whole request and returns no entry list at all) has no filter
result to model, so every theorem that touches the tags branch carries a
hypothesis keeping the data out of it. -/
def tagsFieldMatch (keyword : String) (v : JVal) : Bool :=
  (tagsGuardEval keyword v).getD false

/-- The no-field comprehension guard:
`any(keyword.lower() in str(entry[f]).lower() for f in entry)` — every key of
the entry participates, through `str()`. -/
def anyFieldMatch (keyword : String) (e : Entry) : Bool :=
  e.any (fun kv => containsCI (pyStr kv.2) keyword)

/-- Lines 163-172 of `src/server/neosearch.py`: keyword/field filtering of one
repository's entries (`field in entry` guards the access `entry[field]`). -/
def filterEntries (data : List Entry) (keyword fieldName : Option String) :
    List Entry :=
  if optTruthy keyword && optTruthy fieldName then
    if fieldName.getD "" == "tags" then
      data.filter (fun e =>
        (dictFind e (fieldName.getD "")).elim false (tagsFieldMatch (keyword.getD "")))
    else
      data.filter (fun e =>
        (dictFind e (fieldName.getD "")).elim false
          (fun v => containsCI (pyStr v) (keyword.getD "")))
  else if optTruthy keyword then
    data.filter (anyFieldMatch (keyword.getD ""))
  else
    data

/-- `GET /search` (config-file variant): walk the configured repositories,
skip silently any that fails validation, filter the rest by keyword/field and
the optional `repository` parameter (`entry.get("repository") == repository`),
and concatenate. -/
def server_search (config : List String) (env : String → FetchOutcome)
    (keyword repository fieldName : Option String) : List Entry :=
  match config with
  | [] => []
  | repo :: rest =>
      let tail := server_search rest env keyword repository fieldName
      if validate_repository env repo then
        match env repo with
        | .okEntries data =>
            let filtered := filterEntries data keyword fieldName
            let filtered2 :=
              if optTruthy repository then
                filtered.filter (fun e =>
                  dictFind e "repository" == some (.s (repository.getD "")))
              else filtered
            filtered2 ++ tail
        | _ => tail
      else tail

/-! ### The public write interface, as a transition system (for reachability)

Every route of `src/backend/neosearch.py` that can create or remove rows.
Protected routes run behind `Depends(auth.get_current_user)`, which looks the
token's user up in the database and raises 401 when absent — modelled as the
`(get_user_by_id db uid).isSome` gate leaving the state unchanged. The fetch
outcome observed by a repository operation is carried inside the operation. -/

inductive Op where
  | register : String → Op
  | addBookmark : Nat → String → String → List String → String → Op
  | deleteBookmark : Nat → Nat → Op
  | addRepository : Nat → String → String → FetchResult → Op
  | syncRepository : Nat → Nat → FetchResult → Op
  | deleteRepository : Nat → Nat → Op

/-- `POST /auth/register`: reject an existing username, otherwise insert. -/
def register (db : DB) (username : String) : DB :=
  match get_user_by_username db username with
  | some _ => db
  | none => (create_user db username).1

def applyOp (db : DB) (op : Op) (now : Nat) : DB :=
  match op with
  | .register uname => register db uname
  | .addBookmark uid url description tags category =>
      if (get_user_by_id db uid).isSome then
        (add_bookmark db uid url description tags category now).1
      else db
  | .deleteBookmark uid bid =>
      if (get_user_by_id db uid).isSome then (delete_bookmark db bid uid).1 else db
  | .addRepository uid name url fetched =>
      if (get_user_by_id db uid).isSome then
        (add_repository db uid name url (fun _ => fetched) now).1
      else db
  | .syncRepository uid rid fetched =>
      if (get_user_by_id db uid).isSome then
        (sync_repository db uid rid (fun _ => fetched) now).1
      else db
  | .deleteRepository uid rid =>
      if (get_user_by_id db uid).isSome then (delete_repository db rid uid).1 else db

/-- Database states reachable from a fresh database through the service's
public interface. -/
inductive Reachable : DB → Prop
  | empty : Reachable DB.empty
  | step (db : DB) (op : Op) (now : Nat) : Reachable db → Reachable (applyOp db op now)

/-! ### Characterizing the import loop -/

/-- The bookmarks the import loop creates from a feed, given the next free
`AUTOINCREMENT` id. -/
def importsOf (user_id : Nat) (repo_name : String) (now : Nat) :
    List FeedItem → Nat → List Bookmark
  | [], _ => []
  | item :: rest, nextId =>
      if validItem item then
        ⟨nextId, user_id, item.url.getD "", item.description.getD "",
          item.itemTags, item.category.getD "IMPORTED", some repo_name, true, now⟩
          :: importsOf user_id repo_name now rest (nextId + 1)
      else importsOf user_id repo_name now rest nextId

theorem import_bookmarks_eq (user_id : Nat) (repo_name : String) (now : Nat)
    (feed : List FeedItem) : ∀ (db : DB) (count : Nat),
    import_bookmarks user_id repo_name now feed db count =
      ({ db with
          bookmarks := db.bookmarks ++
            importsOf user_id repo_name now feed db.next_bookmark_id,
          next_bookmark_id := db.next_bookmark_id + countValid feed },
        count + countValid feed) := by
  induction feed with
  | nil =>
    intro db count
    simp [import_bookmarks, importsOf, countValid]
  | cons item rest ih =>
    intro db count
    by_cases h : validItem item = true
    · simp only [import_bookmarks, importsOf, h, if_pos, create_bookmark, ih,
        countValid, List.filter_cons, List.length_cons]
      simp only [Prod.mk.injEq, DB.mk.injEq, List.append_assoc,
        List.singleton_append, true_and, and_true]
      omega
    · simp only [import_bookmarks, importsOf, h, if_neg, ih, countValid,
        List.filter_cons]
      simp [h, countValid]

theorem importsOf_length (user_id : Nat) (repo_name : String) (now : Nat)
    (feed : List FeedItem) : ∀ nextId : Nat,
    (importsOf user_id repo_name now feed nextId).length = countValid feed := by
  induction feed with
  | nil => intro nextId; simp [importsOf, countValid]
  | cons item rest ih =>
    intro nextId
    by_cases h : validItem item = true
    · simp [importsOf, h, ih, countValid, List.filter_cons]
    · simp [importsOf, h, ih, countValid, List.filter_cons]

theorem importsOf_fields (user_id : Nat) (repo_name : String) (now : Nat)
    (feed : List FeedItem) : ∀ (nextId : Nat) (b : Bookmark),
    b ∈ importsOf user_id repo_name now feed nextId →
      b.user_id = user_id ∧ b.source = some repo_name ∧ b.is_public = true := by
  induction feed with
  | nil => intro nextId b hb; simp [importsOf] at hb
  | cons item rest ih =>
    intro nextId b hb
    by_cases h : validItem item = true
    · simp only [importsOf, h, if_pos, List.mem_cons] at hb
      rcases hb with rfl | hb
      · exact ⟨rfl, rfl, rfl⟩
      · exact ih _ b hb
    · simp only [importsOf, h, if_neg, Bool.false_eq_true, not_false_eq_true] at hb
      exact ih _ b hb

/-- The visible content of a bookmark: everything except the row id and the
creation timestamp. -/
def bookmarkContent (b : Bookmark) :
    String × String × List String × String × Option String × Bool :=
  (b.url, b.description, b.tags, b.category, b.source, b.is_public)

theorem importsOf_content (user_id : Nat) (repo_name : String)
    (now now' : Nat) (feed : List FeedItem) : ∀ nextId nextId' : Nat,
    (importsOf user_id repo_name now feed nextId).map bookmarkContent =
      (importsOf user_id repo_name now' feed nextId').map bookmarkContent := by
  induction feed with
  | nil => intro n n'; simp [importsOf]
  | cons item rest ih =>
    intro n n'
    by_cases h : validItem item = true
    · simp only [importsOf, h, if_pos, List.map_cons]
      rw [ih (n + 1) (n' + 1)]
      simp [bookmarkContent]
    · simp only [importsOf, h, if_neg, Bool.false_eq_true, not_false_eq_true]
      exact ih n n'

/-! ### Concrete fixtures used by witnesses and counterexamples -/

def aliceU : User := ⟨1, "alice"⟩

def r1Repo : Repository := ⟨1, 1, "r1", "https://feed.example/r1.json", true, none, 0⟩

/-- A bookmark previously imported from repository `r1`. -/
def importedB : Bookmark :=
  ⟨1, 1, "https://a.example", "imported note", ["go", "x"], "IMPORTED", some "r1", true, 1⟩

/-- A manually added bookmark of the same owner whose other fields coincide
with `importedB` but whose `source` is NULL. -/
def manualB : Bookmark :=
  ⟨2, 1, "https://a.example", "imported note", ["go", "x"], "IMPORTED", none, true, 2⟩

def exDB : DB := ⟨[aliceU], [importedB, manualB], [r1Repo], 2, 3, 2⟩

/-! ### Claim C5 -/

/-- C5: deleting an owned repository removes exactly the owner's bookmarks
whose `source` equals the repository's `name` — the surviving bookmark list
is the original one filtered by that predicate — and in particular every
bookmark with a NULL `source` survives, whatever its other fields. -/
theorem C5_delete_repository_exact (db : DB) (repository_id user_id : Nat)
    (repo : Repository)
    (hrepo : get_repository_by_id db repository_id user_id = some repo) :
    (delete_repository db repository_id user_id).1.bookmarks =
      db.bookmarks.filter
        (fun b => !(b.user_id == user_id && b.source == some repo.name)) ∧
    ∀ b ∈ db.bookmarks, b.source = none →
      b ∈ (delete_repository db repository_id user_id).1.bookmarks := by
  have hmain : (delete_repository db repository_id user_id).1.bookmarks =
      db.bookmarks.filter
        (fun b => !(b.user_id == user_id && b.source == some repo.name)) := by
    simp [delete_repository, hrepo, delete_bookmarks_by_source]
  refine ⟨hmain, ?_⟩
  intro b hb hsrc
  rw [hmain, List.mem_filter]
  exact ⟨hb, by simp [hsrc]⟩

/-- Witness for C5 on the concrete fixture: `r1` is owned by user 1, and the
manual bookmark (NULL source, otherwise identical fields) survives while the
imported one is removed. -/
theorem C5_witness :
    get_repository_by_id exDB 1 1 = some r1Repo ∧
    ((delete_repository exDB 1 1).1.bookmarks =
        exDB.bookmarks.filter
          (fun b => !(b.user_id == 1 && b.source == some r1Repo.name)) ∧
      ∀ b ∈ exDB.bookmarks, b.source = none →
        b ∈ (delete_repository exDB 1 1).1.bookmarks) :=
  ⟨by decide, C5_delete_repository_exact exDB 1 1 r1Repo (by decide)⟩

/-! ### Claim C4 -/

/-- C4: a bookmark stored with `is_public = false` never appears among the
anonymous (public-scope) search results, for any keyword. -/
theorem C4_private_never_in_public_search (db : DB) (keyword : Option String)
    (b : Bookmark) (username : String) (hpriv : b.is_public = false) :
    (b, username) ∉ search_public_bookmarks db keyword := by
  intro hmem
  rw [search_public_bookmarks, mem_sortDesc, List.mem_filterMap] at hmem
  obtain ⟨a, _, hfa⟩ := hmem
  split at hfa
  · split at hfa
    · split at hfa
      · rename_i hcond
        have hab : a = b := congrArg Prod.fst (Option.some_inj.mp hfa)
        have hpub : a.is_public = true := ((Bool.and_eq_true ..).mp hcond).1
        rw [hab, hpriv] at hpub
        exact Bool.noConfusion hpub
      · exact Option.noConfusion hfa
    · split at hfa
      · rename_i hcond
        have hab : a = b := congrArg Prod.fst (Option.some_inj.mp hfa)
        have hpub : a.is_public = true := ((Bool.and_eq_true ..).mp hcond).1
        rw [hab, hpriv] at hpub
        exact Bool.noConfusion hpub
      · exact Option.noConfusion hfa
  · exact Option.noConfusion hfa

/-- A private bookmark for the C4 witness. -/
def privB : Bookmark :=
  ⟨3, 1, "https://p.example", "secret python notes", [], "USER", none, false, 3⟩

def exDBpriv : DB := ⟨[aliceU], [importedB, manualB, privB], [r1Repo], 2, 4, 2⟩

/-- Witness for C4: the private bookmark stays out of the anonymous search
even though its description matches the keyword. -/
theorem C4_witness :
    privB.is_public = false ∧
    (privB, "alice") ∉ search_public_bookmarks exDBpriv (some "python") :=
  ⟨by decide, C4_private_never_in_public_search exDBpriv (some "python") privB "alice" (by decide)⟩

/-! ### Claim C2 -/

/-- C2: importing a repository whose URL passes the scheme check and whose
feed fetch yields a valid JSON array creates exactly `countValid feed` new
bookmarks — one per object with truthy `url` and `description`, each tagged
`source = name` — appended to the store, reports that same number, and skips
the remaining objects without failing the import. -/
theorem C2_import_count (db : DB) (user_id : Nat) (name url : String)
    (fetch : String → FetchResult) (feed : List FeedItem) (now : Nat)
    (hurl : (startsWithStr url "http://" || startsWithStr url "https://") = true)
    (hfetch : fetch url = FetchResult.ok feed) :
    (add_repository db user_id name url fetch now).2 =
        ImportOutcome.success db.next_repository_id (countValid feed) ∧
    (add_repository db user_id name url fetch now).1.bookmarks =
        db.bookmarks ++ importsOf user_id name now feed db.next_bookmark_id ∧
    (importsOf user_id name now feed db.next_bookmark_id).length =
        countValid feed ∧
    ∀ b ∈ importsOf user_id name now feed db.next_bookmark_id,
      b.source = some name := by
  have hrun : add_repository db user_id name url fetch now =
      (update_repository_sync_time
        (import_bookmarks user_id name now feed (create_repository db user_id name url true now).1 0).1
        (create_repository db user_id name url true now).2 now,
       ImportOutcome.success (create_repository db user_id name url true now).2
        (import_bookmarks user_id name now feed (create_repository db user_id name url true now).1 0).2) := by
    simp only [add_repository, hurl, Bool.not_true, Bool.false_eq_true,
      if_false, hfetch]
  rw [hrun]
  rw [import_bookmarks_eq]
  refine ⟨by simp [create_repository], ?_, importsOf_length .., ?_⟩
  · simp [update_repository_sync_time, create_repository]
  · intro b hb
    exact (importsOf_fields user_id name now feed db.next_bookmark_id b hb).2.1

/-- The end-to-end feed of spec section 8: two valid objects, one lacking a
url. -/
def exFeedC2 : List FeedItem :=
  [⟨some "https://a.com", some "A", none, none⟩,
   ⟨none, some "no url", none, none⟩,
   ⟨some "https://b.com", some "B", some (.list ["x"]), none⟩]

/-- Witness for C2 on the spec's end-to-end feed: importedCount = 2, two
bookmarks created, one entry silently skipped. -/
theorem C2_witness :
    (startsWithStr "https://feeds.example/f.json" "http://" ||
      startsWithStr "https://feeds.example/f.json" "https://") = true ∧
    countValid exFeedC2 = 2 ∧
    ((add_repository exDB 1 "f" "https://feeds.example/f.json"
        (fun _ => FetchResult.ok exFeedC2) 7).2 =
      ImportOutcome.success exDB.next_repository_id (countValid exFeedC2) ∧
     (add_repository exDB 1 "f" "https://feeds.example/f.json"
        (fun _ => FetchResult.ok exFeedC2) 7).1.bookmarks =
      exDB.bookmarks ++ importsOf 1 "f" 7 exFeedC2 exDB.next_bookmark_id ∧
     (importsOf 1 "f" 7 exFeedC2 exDB.next_bookmark_id).length =
      countValid exFeedC2 ∧
     ∀ b ∈ importsOf 1 "f" 7 exFeedC2 exDB.next_bookmark_id,
       b.source = some "f") :=
  ⟨by decide, by decide,
   C2_import_count exDB 1 "f" "https://feeds.example/f.json"
     (fun _ => FetchResult.ok exFeedC2) exFeedC2 7 (by decide) rfl⟩

/-! ### Claim C1 -/

/-- Counterexample to C1: on a database where user 1 owns repository `r1` and
one bookmark imported from it, a resync whose fetch fails reports the error —
but the stored bookmarks do not remain unchanged: the previously imported
bookmark is already gone, because the code deletes by source before fetching. -/
theorem C1_counterexample :
    (sync_repository exDB 1 1 (fun _ => FetchResult.reqError) 9).2 =
        ImportOutcome.fetchFailed ∧
    (sync_repository exDB 1 1 (fun _ => FetchResult.reqError) 9).1.bookmarks =
        [manualB] ∧
    exDB.bookmarks = [importedB, manualB] := by
  refine ⟨rfl, by decide, rfl⟩

/-- C1 as amended: when the feed fetch fails during resync (unreachable,
timeout, non-2xx, or non-JSON body), the error is reported to the caller, but
the state left behind is the one after `delete_bookmarks_by_source`: the
owner's previously imported bookmarks for that repository have already been
deleted, since the deletion runs before the fetch. -/
theorem C1_fetch_failure_after_delete (db : DB) (user_id repository_id : Nat)
    (repo : Repository) (fetch : String → FetchResult) (now : Nat)
    (hrepo : get_repository_by_id db repository_id user_id = some repo)
    (hfail : fetch repo.url = FetchResult.reqError ∨
      fetch repo.url = FetchResult.jsonError) :
    sync_repository db user_id repository_id fetch now =
      (delete_bookmarks_by_source db user_id repo.name,
       ImportOutcome.fetchFailed) := by
  simp only [sync_repository, hrepo]
  rcases hfail with h | h <;> rw [h]

/-- Witness for the amended C1 on the concrete fixture. -/
theorem C1_witness :
    get_repository_by_id exDB 1 1 = some r1Repo ∧
    ((fun _ => FetchResult.reqError : String → FetchResult) r1Repo.url =
        FetchResult.reqError ∨
      (fun _ => FetchResult.reqError : String → FetchResult) r1Repo.url =
        FetchResult.jsonError) ∧
    sync_repository exDB 1 1 (fun _ => FetchResult.reqError) 9 =
      (delete_bookmarks_by_source exDB 1 r1Repo.name,
       ImportOutcome.fetchFailed) :=
  ⟨by decide, Or.inl rfl,
   C1_fetch_failure_after_delete exDB 1 1 r1Repo
     (fun _ => FetchResult.reqError) 9 (by decide) (Or.inl rfl)⟩

/-! ### Claim C3: helper lemmas -/

/-- A successful resync, written out as the explicit resulting state:
bookmarks of that source filtered out, fresh imports appended, the
repository's `last_synced` stamped. -/
theorem sync_repository_ok (db : DB) (user_id repository_id : Nat)
    (repo : Repository) (fetch : String → FetchResult) (feed : List FeedItem)
    (now : Nat)
    (hrepo : get_repository_by_id db repository_id user_id = some repo)
    (hfetch : fetch repo.url = FetchResult.ok feed) :
    sync_repository db user_id repository_id fetch now =
      ({ users := db.users,
         bookmarks := db.bookmarks.filter
             (fun b => !(b.user_id == user_id && b.source == some repo.name)) ++
           importsOf user_id repo.name now feed db.next_bookmark_id,
         repositories := db.repositories.map (fun r =>
           if r.id == repository_id then { r with last_synced := some now } else r),
         next_user_id := db.next_user_id,
         next_bookmark_id := db.next_bookmark_id + countValid feed,
         next_repository_id := db.next_repository_id },
       ImportOutcome.success repository_id (countValid feed)) := by
  simp only [sync_repository, hrepo, hfetch, delete_bookmarks_by_source,
    import_bookmarks_eq, update_repository_sync_time, Nat.zero_add]

/-- The sync-time update touches only `last_synced`, so an owner-scoped lookup
still finds the same repository row up to its `last_synced` field. -/
theorem get_repository_after_sync_update (db : DB)
    (repository_id user_id target_id now : Nat) (repo : Repository)
    (hrepo : get_repository_by_id db repository_id user_id = some repo) :
    get_repository_by_id (update_repository_sync_time db target_id now)
        repository_id user_id =
      some (if repo.id == target_id then { repo with last_synced := some now }
            else repo) := by
  unfold get_repository_by_id update_repository_sync_time at *
  rw [List.find?_map]
  have hcomp : ((fun r : Repository => r.id == repository_id && r.user_id == user_id) ∘
      (fun r : Repository =>
        if r.id == target_id then { r with last_synced := some now } else r)) =
      (fun r : Repository => r.id == repository_id && r.user_id == user_id) := by
    funext r
    simp only [Function.comp_apply]
    split <;> rfl
  rw [hcomp, hrepo]
  rfl

theorem filter_self_again {α : Type} (p : α → Bool) (l : List α) :
    (l.filter p).filter p = l.filter p := by
  induction l with
  | nil => rfl
  | cons a l ih =>
    by_cases h : p a = true <;> simp [List.filter_cons, h, ih]

/-- Every bookmark the import loop creates carries the repository as its
source, so the resync delete removes all of them. -/
theorem filter_importsOf_nil (user_id : Nat) (name : String) (now : Nat)
    (feed : List FeedItem) (nextId : Nat) :
    (importsOf user_id name now feed nextId).filter
        (fun b => !(b.user_id == user_id && b.source == some name)) = [] := by
  rw [List.filter_eq_nil_iff]
  intro b hb
  obtain ⟨h1, h2, -⟩ := importsOf_fields user_id name now feed nextId b hb
  simp [h1, h2]

/-! ### Claim C3 -/

/-- C3: resync is idempotent under an unchanged remote feed — running it a
second time yields a bookmark table with the same count and the same visible
field values (ids and timestamps are fresh, everything else agrees). -/
theorem C3_resync_idempotent (db : DB) (user_id repository_id : Nat)
    (repo : Repository) (fetch : String → FetchResult) (feed : List FeedItem)
    (now now' : Nat)
    (hrepo : get_repository_by_id db repository_id user_id = some repo)
    (hfetch : fetch repo.url = FetchResult.ok feed) :
    ((sync_repository (sync_repository db user_id repository_id fetch now).1
        user_id repository_id fetch now').1.bookmarks).map bookmarkContent =
      ((sync_repository db user_id repository_id fetch now).1.bookmarks).map
        bookmarkContent := by
  have h1 := sync_repository_ok db user_id repository_id repo fetch feed now
    hrepo hfetch
  set db1 := (sync_repository db user_id repository_id fetch now).1 with hdb1
  rw [h1] at hdb1
  -- the second lookup finds the freshly stamped row, with name and url intact
  have hrepo1 : get_repository_by_id db1 repository_id user_id =
      some (if repo.id == repository_id then { repo with last_synced := some now }
            else repo) := by
    rw [hdb1]
    have hshape :
        ({ users := db.users,
           bookmarks := db.bookmarks.filter
               (fun b => !(b.user_id == user_id && b.source == some repo.name)) ++
             importsOf user_id repo.name now feed db.next_bookmark_id,
           repositories := db.repositories.map (fun r =>
             if r.id == repository_id then { r with last_synced := some now } else r),
           next_user_id := db.next_user_id,
           next_bookmark_id := db.next_bookmark_id + countValid feed,
           next_repository_id := db.next_repository_id } : DB) =
        update_repository_sync_time
          { users := db.users,
            bookmarks := db.bookmarks.filter
                (fun b => !(b.user_id == user_id && b.source == some repo.name)) ++
              importsOf user_id repo.name now feed db.next_bookmark_id,
            repositories := db.repositories,
            next_user_id := db.next_user_id,
            next_bookmark_id := db.next_bookmark_id + countValid feed,
            next_repository_id := db.next_repository_id } repository_id now := rfl
    rw [hshape]
    exact get_repository_after_sync_update _ repository_id user_id
      repository_id now repo hrepo
  set repo1 := (if repo.id == repository_id then
      { repo with last_synced := some now } else repo) with hrepo1def
  have hname1 : repo1.name = repo.name := by
    rw [hrepo1def]; split <;> rfl
  have hurl1 : repo1.url = repo.url := by
    rw [hrepo1def]; split <;> rfl
  have hfetch1 : fetch repo1.url = FetchResult.ok feed := by rw [hurl1]; exact hfetch
  have h2 := sync_repository_ok db1 user_id repository_id repo1 fetch feed now'
    hrepo1 hfetch1
  rw [h2, hname1]
  rw [hdb1]
  simp only [List.filter_append, filter_self_again, filter_importsOf_nil,
    List.append_nil, List.map_append]
  rw [importsOf_content user_id repo.name now' now feed _ db.next_bookmark_id]

/-- Witness for C3: resyncing `r1` twice against the same two-entry feed
leaves the same visible bookmark contents as one resync. -/
theorem C3_witness :
    get_repository_by_id exDB 1 1 = some r1Repo ∧
    (fun _ => FetchResult.ok exFeedC2 : String → FetchResult) r1Repo.url =
      FetchResult.ok exFeedC2 ∧
    ((sync_repository (sync_repository exDB 1 1 (fun _ => FetchResult.ok exFeedC2) 5).1
        1 1 (fun _ => FetchResult.ok exFeedC2) 6).1.bookmarks).map bookmarkContent =
      ((sync_repository exDB 1 1 (fun _ => FetchResult.ok exFeedC2) 5).1.bookmarks).map
        bookmarkContent :=
  ⟨by decide, rfl,
   C3_resync_idempotent exDB 1 1 r1Repo (fun _ => FetchResult.ok exFeedC2)
     exFeedC2 5 6 (by decide) rfl⟩

/-! ### Claim C6 -/

/-- The matching rule exactly as claim C6 words it: the keyword must occur
case-insensitively inside `url`, `description`, `category`, or some
*individual element* of `tags`. Stated for refutation/comparison against the
code's `keyword_row_match`. -/
def claimed_keyword_match (keyword : String) (b : Bookmark) : Bool :=
  containsCI b.url keyword || containsCI b.description keyword ||
  containsCI b.category keyword || b.tags.any (fun t => containsCI t keyword)

/-- A bookmark for the C6 wildcard divergence: description `my python notes`. -/
def pyB : Bookmark :=
  ⟨4, 7, "https://py.example", "my python notes", [], "USER", none, true, 1⟩

def pyDB : DB := ⟨[⟨7, "carol"⟩], [pyB], [], 8, 5, 1⟩

/-- Counterexample to C6, on two concrete searches the claim's iff gets
wrong. First, the SQL `LIKE` on the `tags` column runs over the
JSON-serialized text `["go", "x"]`, so the keyword `o", "x` — which spans two
tags and some JSON punctuation — matches the stored row even though it occurs
in no individual tag and in none of `url`, `description`, `category`.
Second, `%` and `_` in the keyword are SQL wildcards, not literal characters:
keyword `python_notes` matches the description `my python notes` (`_` matches
the space) although it is a case-insensitive substring of no field. -/
theorem C6_counterexample :
    (importedB ∈ search_user_bookmarks exDB 1 (some "o\", \"x") ∧
      claimed_keyword_match "o\", \"x" importedB = false) ∧
    (pyB ∈ search_user_bookmarks pyDB 7 (some "python_notes") ∧
      claimed_keyword_match "python_notes" pyB = false) := by
  exact ⟨⟨by decide, by decide⟩, ⟨by decide, by decide⟩⟩

/-- C6 as amended: with a truthy keyword, an owner-scope search returns a
bookmark iff it belongs to the owner and the SQLite pattern
`'%' || keyword || '%'` LIKE-matches (case-insensitively, `%`/`_` in the
keyword acting as wildcards) its `url`, its `description`, the
JSON-serialized text of its `tags` list, or its `category` — i.e. tag
matching is against the serialized list, not per element, and the keyword is
a LIKE pattern fragment, not a plain substring. -/
theorem C6_keyword_match_characterization (db : DB) (user_id : Nat)
    (keyword : String) (b : Bookmark) (hk : strTruthy keyword = true) :
    b ∈ search_user_bookmarks db user_id (some keyword) ↔
      b ∈ db.bookmarks ∧ b.user_id = user_id ∧
        (likeContainsKeyword b.url keyword ||
         likeContainsKeyword b.description keyword ||
         likeContainsKeyword (json_dumps_strings b.tags) keyword ||
         likeContainsKeyword b.category keyword) = true := by
  simp only [search_user_bookmarks, optTruthy, hk, if_pos, mem_sortDesc,
    List.mem_filter, Option.getD_some, keyword_row_match, Bool.and_eq_true,
    beq_iff_eq]

/-- Witness for the amended C6, on the spec's own example: keyword `PYTHON`
(uppercase) matches a bookmark whose description is `my python notes`; the
final conjuncts evaluate the searches, including a wildcard keyword. -/
theorem C6_witness :
    strTruthy "PYTHON" = true ∧
    (pyB ∈ search_user_bookmarks pyDB 7 (some "PYTHON") ↔
      pyB ∈ pyDB.bookmarks ∧ pyB.user_id = 7 ∧
        (likeContainsKeyword pyB.url "PYTHON" ||
         likeContainsKeyword pyB.description "PYTHON" ||
         likeContainsKeyword (json_dumps_strings pyB.tags) "PYTHON" ||
         likeContainsKeyword pyB.category "PYTHON") = true) ∧
    pyB ∈ search_user_bookmarks pyDB 7 (some "PYTHON") ∧
    pyB ∈ search_user_bookmarks pyDB 7 (some "pyth_n") :=
  ⟨by decide,
   C6_keyword_match_characterization pyDB 7 "PYTHON" pyB (by decide),
   by decide, by decide⟩

/-! ### Claim C7 -/

/-- The matching rule as claim C7 words it, transcribed independently of the
filter code: with both a keyword and a field, the test is restricted to the
named field — for `tags`, the keyword must be a case-insensitive substring of
some individual tag; for any other field, of the field's stringified value.
An entry lacking the named field has no value to match. -/
def claimed_field_match (keyword fieldName : String) (e : Entry) : Bool :=
  if fieldName == "tags" then
    match dictFind e "tags" with
    | some (.arr ts) => ts.any (fun t =>
        match t with
        | .s str => containsCI str keyword
        | _ => false)
    | _ => false
  else
    match dictFind e fieldName with
    | some v => containsCI (pyStr v) keyword
    | none => false

/-- A tags value of the well-formed shape the claim's "tags sequence"
presupposes: an array whose elements are all strings. On any other shape the
Python guard either iterates a string per character or raises — see
`tagsGuardEval`. -/
def stringArray : JVal → Bool
  | .arr vs => vs.all (fun t =>
      match t with
      | .s _ => true
      | _ => false)
  | _ => false

/-- On a list of tags that are all strings the short-circuit `any` cannot
raise, and it computes the plain per-element disjunction. -/
theorem anyTagEval_all_strings (keyword : String) (ts : List JVal)
    (h : ts.all (fun t =>
      match t with
      | .s _ => true
      | _ => false) = true) :
    anyTagEval keyword ts =
      some (ts.any (fun t =>
        match t with
        | .s str => containsCI str keyword
        | _ => false)) := by
  induction ts with
  | nil => rfl
  | cons t rest ih =>
    cases t with
    | s str =>
      simp only [List.all_cons, Bool.and_eq_true] at h
      by_cases hc : containsCI str keyword = true
      · simp [anyTagEval, hc, List.any_cons]
      · simp [anyTagEval, hc, List.any_cons, ih h.2]
    | n i => simp [List.all_cons] at h
    | b bv => simp [List.all_cons] at h
    | nul => simp [List.all_cons] at h
    | arr vs => simp [List.all_cons] at h

/-- On a well-formed tags value the totalized filter guard agrees with the
claim's per-element rule (and the guard provably does not raise). -/
theorem tags_guard_eq_claimed (keyword : String) (e : Entry)
    (hsv : (dictFind e "tags").elim true stringArray = true) :
    (dictFind e "tags").elim false (tagsFieldMatch keyword) =
      claimed_field_match keyword "tags" e := by
  have hred : claimed_field_match keyword "tags" e =
      (match dictFind e "tags" with
       | some (.arr ts) => ts.any (fun t =>
           match t with
           | .s str => containsCI str keyword
           | _ => false)
       | _ => false) := rfl
  rw [hred]
  cases hdf : dictFind e "tags" with
  | none => rfl
  | some v =>
    rw [hdf] at hsv
    simp only [Option.elim] at hsv
    cases v with
    | arr ts =>
      have heval := anyTagEval_all_strings keyword ts
        (by simpa [stringArray] using hsv)
      simp [Option.elim, tagsFieldMatch, tagsGuardEval, pyIterate, heval]
    | s str => simp [stringArray] at hsv
    | n i => simp [stringArray] at hsv
    | b bv => simp [stringArray] at hsv
    | nul => simp [stringArray] at hsv

/-- C7: with a truthy keyword and field, and — when the named field is
`tags` — candidate entries whose present `tags` values are arrays of strings
(the shape the claim's examples presuppose; on it the Python guard provably
cannot raise), the config-file search filter keeps an entry iff it was a
candidate and matches on exactly the named field, per `claimed_field_match`. -/
theorem C7_field_scoped_search (data : List Entry) (keyword fieldName : String)
    (e : Entry) (hk : strTruthy keyword = true)
    (hf : strTruthy fieldName = true)
    (hwf : fieldName = "tags" → ∀ e2 ∈ data,
      (dictFind e2 "tags").elim true stringArray = true) :
    e ∈ filterEntries data (some keyword) (some fieldName) ↔
      e ∈ data ∧ claimed_field_match keyword fieldName e = true := by
  simp only [filterEntries, optTruthy, hk, hf, Bool.and_self, if_pos,
    Option.getD_some]
  by_cases htags : (fieldName == "tags") = true
  · have hfn : fieldName = "tags" := beq_iff_eq.mp htags
    subst hfn
    simp only [htags, if_pos]
    rw [List.filter_congr (fun e2 he2 =>
      tags_guard_eq_claimed keyword e2 (hwf rfl e2 he2))]
    simp only [List.mem_filter]
  · simp only [htags, Bool.false_eq_true, if_false, List.mem_filter,
      claimed_field_match]
    cases hdf : dictFind e fieldName with
    | none => simp [hdf, Option.elim]
    | some v => simp [hdf, Option.elim]

/-- The two entries of the claim's example. -/
def goEntry : Entry :=
  [("url", .s "https://g.example"), ("description", .s "g"),
   ("tags", .arr [.s "golang", .s "backend"])]

def pyEntry : Entry :=
  [("url", .s "https://p.example"), ("description", .s "p"),
   ("tags", .arr [.s "python"])]

/-- Witness for C7 on the claim's example: `field="tags", keyword="go"`
matches the `["golang","backend"]` entry and not the `["python"]` one; both
entries carry string-array tags, discharging the well-formedness premise. -/
theorem C7_witness :
    strTruthy "go" = true ∧ strTruthy "tags" = true ∧
    ("tags" = "tags" → ∀ e2 ∈ [goEntry, pyEntry],
      (dictFind e2 "tags").elim true stringArray = true) ∧
    (goEntry ∈ filterEntries [goEntry, pyEntry] (some "go") (some "tags") ↔
      goEntry ∈ [goEntry, pyEntry] ∧
        claimed_field_match "go" "tags" goEntry = true) ∧
    claimed_field_match "go" "tags" goEntry = true ∧
    claimed_field_match "go" "tags" pyEntry = false ∧
    filterEntries [goEntry, pyEntry] (some "go") (some "tags") = [goEntry] :=
  ⟨by decide, by decide, by
      intro h2 e2 he2
      simp only [List.mem_cons, List.not_mem_nil, or_false] at he2
      rcases he2 with rfl | rfl
      · decide
      · decide,
   C7_field_scoped_search [goEntry, pyEntry] "go" "tags" goEntry
     (by decide) (by decide) (by
      intro h2 e2 he2
      simp only [List.mem_cons, List.not_mem_nil, or_false] at he2
      rcases he2 with rfl | rfl
      · decide
      · decide),
   by decide, by decide, rfl⟩

/-! ### Claim C8 -/

/-- A feed entry carrying internal/extra keys, served by the config-file
variant. -/
def rawEntry : Entry :=
  [("url", .s "https://a.example"), ("description", .s "d"),
   ("id", .n 7), ("internal_token", .s "x")]

def envC8 : String → FetchOutcome :=
  fun repo => if repo == "feed.json" then .okEntries [rawEntry] else .unreachable

/-- Counterexample to C8: the config-file variant's search performs no output
shaping at all — it returns the feed entries verbatim, so a result item can
expose the internal key `id` and an arbitrary extra key, contradicting the
claim that *every* result of *every* search invocation projects to exactly
the six allowed fields. -/
theorem C8_counterexample :
    server_search ["feed.json"] envC8 none none none = [rawEntry] ∧
    dictFind rawEntry "id" = some (.n 7) ∧
    (rawEntry.map Prod.fst).contains "internal_token" = true := by
  exact ⟨rfl, rfl, rfl⟩

/-- C8 as amended: the exact-fields projection holds for the database-backed
variant's `/search` — every result item has exactly the keys `url`,
`description`, `tags`, `category`, `source`, `username` (the `username` value
is `null` except for public-scope rows), dropping `id`, `user_id` and the raw
timestamps; the config-file variant returns feed entries unprojected. -/
theorem C8_backend_projection (db : DB) (current_user : Option Nat)
    (keyword : Option String) (item : Entry)
    (hmem : item ∈ search_endpoint db current_user keyword) :
    item.map Prod.fst =
      ["url", "description", "tags", "category", "source", "username"] := by
  cases current_user with
  | some uid =>
    obtain ⟨b, -, rfl⟩ := List.mem_map.mp hmem
    rfl
  | none =>
    obtain ⟨r, -, rfl⟩ := List.mem_map.mp hmem
    rfl

/-- Witness for the amended C8: a concrete owner-scope search result carries
exactly the six keys. -/
theorem C8_witness :
    (format_result (Bookmark.toRow manualB)).map Prod.fst =
      ["url", "description", "tags", "category", "source", "username"] :=
  C8_backend_projection exDB (some 1) none _
    (List.mem_map.mpr ⟨manualB, by decide, rfl⟩)

/-! ### Claim C10 -/

/-- C10: in the config-file variant, a configured repository that is
unreachable, missing, or serves invalid JSON never fails the search — it is
skipped silently, and the result is exactly the combined results of the
remaining repositories. -/
theorem C10_bad_repository_skipped (pre post : List String) (bad : String)
    (env : String → FetchOutcome)
    (keyword repository fieldName : Option String)
    (hbad : env bad = FetchOutcome.unreachable ∨
      env bad = FetchOutcome.missingFile ∨
      env bad = FetchOutcome.invalidJson) :
    server_search (pre ++ bad :: post) env keyword repository fieldName =
      server_search (pre ++ post) env keyword repository fieldName := by
  have hval : validate_repository env bad = false := by
    rcases hbad with h | h | h <;> simp [validate_repository, h]
  induction pre with
  | nil =>
    simp only [List.nil_append, server_search, hval, Bool.false_eq_true,
      if_false]
  | cons r rest ih =>
    simp only [List.cons_append, server_search, List.append_eq, ih]

/-- A healthy feed for the C10 witness. -/
def envC10 : String → FetchOutcome :=
  fun repo => if repo == "good.json" then .okEntries [goEntry] else .invalidJson

/-- Witness for C10: a search over a good repository followed by a broken one
equals the search over the good repository alone, and still returns the good
repository's entry. -/
theorem C10_witness :
    (envC10 "bad.json" = FetchOutcome.unreachable ∨
      envC10 "bad.json" = FetchOutcome.missingFile ∨
      envC10 "bad.json" = FetchOutcome.invalidJson) ∧
    server_search (["good.json"] ++ "bad.json" :: []) envC10 none none none =
      server_search (["good.json"] ++ []) envC10 none none none ∧
    server_search (["good.json"] ++ []) envC10 none none none = [goEntry] :=
  ⟨Or.inr (Or.inr rfl),
   C10_bad_repository_skipped ["good.json"] [] "bad.json" envC10 none none none
     (Or.inr (Or.inr rfl)),
   rfl⟩

/-! ### Claim C9: invariants of the write interface -/

/-- The invariant: every stored bookmark is public and owned by a registered
user. -/
def PublicOwnedInv (db : DB) : Prop :=
  ∀ b ∈ db.bookmarks, b.is_public = true ∧ ∃ u ∈ db.users, u.id = b.user_id

theorem exists_user_of_gate (db : DB) (uid : Nat)
    (h : (get_user_by_id db uid).isSome = true) :
    ∃ u ∈ db.users, u.id = uid := by
  rw [get_user_by_id, List.find?_isSome] at h
  obtain ⟨u, hu, hp⟩ := h
  exact ⟨u, hu, by simpa using hp⟩

theorem add_bookmark_users (db : DB) (user_id : Nat) (url description : String)
    (tags : List String) (category : String) (now : Nat) :
    (add_bookmark db user_id url description tags category now).1.users =
      db.users := by
  simp only [add_bookmark]
  split <;> rfl

theorem add_bookmark_mem (db : DB) (user_id : Nat) (url description : String)
    (tags : List String) (category : String) (now : Nat) (b : Bookmark)
    (hb : b ∈ (add_bookmark db user_id url description tags category now).1.bookmarks) :
    b ∈ db.bookmarks ∨ (b.user_id = user_id ∧ b.is_public = true) := by
  simp only [add_bookmark] at hb
  split at hb
  · exact Or.inl hb
  · simp only [create_bookmark, List.mem_append, List.mem_singleton] at hb
    rcases hb with hb | rfl
    · exact Or.inl hb
    · exact Or.inr ⟨rfl, rfl⟩

theorem add_repository_users (db : DB) (user_id : Nat) (name url : String)
    (fetch : String → FetchResult) (now : Nat) :
    (add_repository db user_id name url fetch now).1.users = db.users := by
  simp only [add_repository]
  split
  · rfl
  · cases hf : fetch url with
    | reqError => rfl
    | jsonError => rfl
    | ok feed =>
      simp [import_bookmarks_eq, update_repository_sync_time, create_repository]

theorem add_repository_mem (db : DB) (user_id : Nat) (name url : String)
    (fetch : String → FetchResult) (now : Nat) (b : Bookmark)
    (hb : b ∈ (add_repository db user_id name url fetch now).1.bookmarks) :
    b ∈ db.bookmarks ∨ (b.user_id = user_id ∧ b.is_public = true) := by
  simp only [add_repository] at hb
  split at hb
  · exact Or.inl hb
  · cases hf : fetch url with
    | reqError => rw [hf] at hb; exact Or.inl hb
    | jsonError => rw [hf] at hb; exact Or.inl hb
    | ok feed =>
      rw [hf] at hb
      simp only [import_bookmarks_eq, update_repository_sync_time,
        create_repository, List.mem_append] at hb
      rcases hb with hb | hb
      · exact Or.inl hb
      · obtain ⟨h1, -, h3⟩ := importsOf_fields user_id name now feed _ b hb
        exact Or.inr ⟨h1, h3⟩

theorem sync_repository_users (db : DB) (user_id repository_id : Nat)
    (fetch : String → FetchResult) (now : Nat) :
    (sync_repository db user_id repository_id fetch now).1.users = db.users := by
  simp only [sync_repository]
  split
  · rfl
  · rename_i repo hrepo
    cases hf : fetch repo.url with
    | reqError => simp [hf, delete_bookmarks_by_source]
    | jsonError => simp [hf, delete_bookmarks_by_source]
    | ok feed =>
      simp [hf, delete_bookmarks_by_source, import_bookmarks_eq,
        update_repository_sync_time]

theorem sync_repository_mem (db : DB) (user_id repository_id : Nat)
    (fetch : String → FetchResult) (now : Nat) (b : Bookmark)
    (hb : b ∈ (sync_repository db user_id repository_id fetch now).1.bookmarks) :
    b ∈ db.bookmarks ∨ (b.user_id = user_id ∧ b.is_public = true) := by
  simp only [sync_repository] at hb
  split at hb
  · exact Or.inl hb
  · rename_i repo hrepo
    cases hf : fetch repo.url with
    | reqError =>
      rw [hf] at hb
      simp only [delete_bookmarks_by_source] at hb
      exact Or.inl (List.mem_filter.mp hb).1
    | jsonError =>
      rw [hf] at hb
      simp only [delete_bookmarks_by_source] at hb
      exact Or.inl (List.mem_filter.mp hb).1
    | ok feed =>
      rw [hf] at hb
      simp only [delete_bookmarks_by_source, import_bookmarks_eq,
        update_repository_sync_time, List.mem_append] at hb
      rcases hb with hb | hb
      · exact Or.inl (List.mem_filter.mp hb).1
      · obtain ⟨h1, -, h3⟩ := importsOf_fields user_id repo.name now feed _ b hb
        exact Or.inr ⟨h1, h3⟩

theorem delete_repository_users (db : DB) (repository_id user_id : Nat) :
    (delete_repository db repository_id user_id).1.users = db.users := by
  simp only [delete_repository]
  split <;> rfl

theorem delete_repository_mem (db : DB) (repository_id user_id : Nat)
    (b : Bookmark)
    (hb : b ∈ (delete_repository db repository_id user_id).1.bookmarks) :
    b ∈ db.bookmarks := by
  simp only [delete_repository] at hb
  split at hb
  · exact (List.mem_filter.mp hb).1
  · exact hb

theorem applyOp_preserves (db : DB) (op : Op) (now : Nat)
    (h : PublicOwnedInv db) : PublicOwnedInv (applyOp db op now) := by
  cases op with
  | register uname =>
    simp only [applyOp, register]
    split
    · exact h
    · intro b hb
      obtain ⟨hp, u, hu, hid⟩ := h b hb
      exact ⟨hp, u, List.mem_append_left _ hu, hid⟩
  | addBookmark uid url description tags category =>
    simp only [applyOp]
    split
    · rename_i hg
      intro b hb
      rw [add_bookmark_users]
      rcases add_bookmark_mem db uid url description tags category now b hb with
        hold | ⟨huid, hp⟩
      · exact h b hold
      · obtain ⟨u, hu, hid⟩ := exists_user_of_gate db uid hg
        exact ⟨hp, u, hu, by rw [hid, huid]⟩
    · exact h
  | deleteBookmark uid bid =>
    simp only [applyOp]
    split
    · intro b hb
      exact h b (List.mem_filter.mp hb).1
    · exact h
  | addRepository uid name url fetched =>
    simp only [applyOp]
    split
    · rename_i hg
      intro b hb
      rw [add_repository_users]
      rcases add_repository_mem db uid name url (fun _ => fetched) now b hb with
        hold | ⟨huid, hp⟩
      · exact h b hold
      · obtain ⟨u, hu, hid⟩ := exists_user_of_gate db uid hg
        exact ⟨hp, u, hu, by rw [hid, huid]⟩
    · exact h
  | syncRepository uid rid fetched =>
    simp only [applyOp]
    split
    · rename_i hg
      intro b hb
      rw [sync_repository_users]
      rcases sync_repository_mem db uid rid (fun _ => fetched) now b hb with
        hold | ⟨huid, hp⟩
      · exact h b hold
      · obtain ⟨u, hu, hid⟩ := exists_user_of_gate db uid hg
        exact ⟨hp, u, hu, by rw [hid, huid]⟩
    · exact h
  | deleteRepository uid rid =>
    simp only [applyOp]
    split
    · intro b hb
      rw [delete_repository_users]
      exact h b (delete_repository_mem db rid uid b hb)
    · exact h

theorem reachable_inv (db : DB) (h : Reachable db) : PublicOwnedInv db := by
  induction h with
  | empty => intro b hb; exact absurd hb (List.not_mem_nil b)
  | step db op now hdb ih => exact applyOp_preserves db op now ih

/-- C9: every bookmark ever stored through the service's public interface —
manual add or repository import/resync — carries `is_public = true`, since no
creation path overrides the default visibility; consequently every stored
bookmark is a candidate of the anonymous public search (it appears, paired
with its owner's username, in the unfiltered public results). -/
theorem C9_every_stored_bookmark_public (db : DB) (hdb : Reachable db) :
    ∀ b ∈ db.bookmarks, b.is_public = true ∧
      ∃ username, (b, username) ∈ search_public_bookmarks db none := by
  intro b hb
  obtain ⟨hp, u, hu, hid⟩ := reachable_inv db hdb b hb
  refine ⟨hp, ?_⟩
  obtain ⟨u2, hu2⟩ : ∃ u2,
      db.users.find? (fun u2 => u2.id == b.user_id) = some u2 := by
    rw [← Option.isSome_iff_exists, List.find?_isSome]
    exact ⟨u, hu, by simp [hid]⟩
  refine ⟨u2.username, ?_⟩
  rw [search_public_bookmarks, mem_sortDesc, List.mem_filterMap]
  refine ⟨b, hb, ?_⟩
  rw [hu2]
  simp [hp, optTruthy]

/-- A concrete run of the interface for the C9 witness: register a user, then
add one bookmark manually. -/
def dbC9 : DB :=
  applyOp (applyOp DB.empty (Op.register "alice") 0)
    (Op.addBookmark 1 "https://x.example" "note" [] "USER") 1

theorem C9_witness :
    dbC9.bookmarks =
      [⟨1, 1, "https://x.example", "note", [], "USER", none, true, 1⟩] ∧
    ∀ b ∈ dbC9.bookmarks, b.is_public = true ∧
      ∃ username, (b, username) ∈ search_public_bookmarks dbC9 none :=
  ⟨by decide,
   C9_every_stored_bookmark_public dbC9
     (Reachable.step _ _ _ (Reachable.step _ _ _ Reachable.empty))⟩
